import Mathlib

/-!
Verification development for the edgex-influx-proxy repository.

The repository ingests EdgeX sensor events, infers the scalar type of each
reading's string-encoded value, converts readings into InfluxDB points and
writes batches of points to InfluxDB.  The definitions below are a shallow
embedding of the relevant Go functions:

* `parseValueType` in `cmd/main.go` (boolean / integer / base64 IEEE-754
  float / string cascade) is embedded as `parseValueTypeMain`;
* `parseValueType` in `cmd/influxdbclientserver/main.go` (boolean / integer /
  `strconv.ParseFloat` / string cascade) is embedded as
  `parseValueTypeServer`;
* the timestamp computations of `sendToInfluxDBFunc` (`cmd/main.go`) and
  `sendEventToInflux` (`cmd/influxdbclientserver/main.go`) are embedded as
  `timestampMainGo` and `timestampServer`, on top of an exact rational model
  of IEEE-754 binary64 round-to-nearest-even arithmetic (`fpRound`);
* the per-event batching loop and HTTP handler of
  `cmd/influxdbclientserver/main.go` are embedded as `batchLoopServer`,
  `sendEventToInflux` and `readingData`.

Strings are modelled as `List Char`; the Go `strings.ToLower`,
`strings.ToUpper`, `strings.TrimSpace` and `unicode.IsSpace` functions are
modelled on their ASCII / Latin-1 fragment, which covers every value the
claims quantify over.
-/

/-! ### Go character and string primitives -/

/-- Go `unicode.IsSpace`, restricted to the Latin-1 range: tab, newline,
vertical tab, form feed, carriage return, space, NEL (U+0085) and NBSP
(U+00A0). -/
def goIsSpace (c : Char) : Bool :=
  c = ' ' || c = '\t' || c = '\n' || c = '\x0b' || c = '\x0c' || c = '\r' ||
  c = '\x85' || c = '\xa0'

/-- Go `strings.ToLower` on one character (ASCII fragment). -/
def goLowerChar (c : Char) : Char :=
  if 'A' ≤ c ∧ c ≤ 'Z' then Char.ofNat (c.toNat + 32) else c

/-- Go `strings.ToUpper` on one character (ASCII fragment). -/
def goUpperChar (c : Char) : Char :=
  if 'a' ≤ c ∧ c ≤ 'z' then Char.ofNat (c.toNat - 32) else c

/-- Go `strings.ToLower` (ASCII fragment). -/
def goToLower (s : List Char) : List Char := s.map goLowerChar

/-- Go `strings.ToUpper` (ASCII fragment). -/
def goToUpper (s : List Char) : List Char := s.map goUpperChar

/-- Go `strings.TrimSpace`: drop leading and trailing whitespace. -/
def goTrimSpace (s : List Char) : List Char :=
  ((s.dropWhile goIsSpace).reverse.dropWhile goIsSpace).reverse

/-- The `fixedStr := strings.TrimSpace(strings.ToLower(valueStr))` step shared
by both `parseValueType` implementations. -/
def goFix (s : List Char) : List Char := goTrimSpace (goToLower s)

/-- ASCII decimal digit test. -/
def isDigit (c : Char) : Bool := '0' ≤ c && c ≤ '9'

/-- Numeric value of an ASCII decimal digit. -/
def digitVal (c : Char) : ℕ := c.toNat - 48

/-- Decimal digits to a natural number (most significant first). -/
def digitsToNat (ds : List Char) : ℕ :=
  ds.foldl (fun acc c => acc * 10 + digitVal c) 0

/-! ### Exact rational model of IEEE-754 binary64 arithmetic

Go's `float64` operations round their exact mathematical result to the
nearest representable binary64 value, ties to even.  We model a (finite,
normal-range) `float64` value by the exact rational it denotes, and model
each Go floating-point operation by performing exact rational arithmetic
followed by `fpRound`, the round-to-nearest-even projection onto numbers of
the form `± m * 2^k` with `m < 2^53`.  Exponent overflow and subnormal
underflow are outside the range exercised by the repository's timestamp and
parsing code and are not modelled. -/

/-- `2 ^ k` as a rational, for an integer exponent `k`. -/
def pow2 (k : ℤ) : ℚ :=
  if 0 ≤ k then ((2 ^ k.toNat : ℕ) : ℚ) else (((2 : ℕ) ^ (-k).toNat : ℕ) : ℚ)⁻¹

/-- Number of binary digits of `n` (0 for 0), via an explicit fuel so that
the recursion is structural. -/
def bitlenAux : ℕ → ℕ → ℕ
  | 0, _ => 0
  | fuel + 1, n => if n = 0 then 0 else bitlenAux fuel (n / 2) + 1

/-- Number of binary digits of `n`: `bitlen 0 = 0`, `bitlen 1 = 1`,
`bitlen 1000 = 10`. -/
def bitlen (n : ℕ) : ℕ := bitlenAux n n

/-- `⌊log₂ q⌋` for a positive rational `q`, computed from the bit lengths of
numerator and denominator with a final adjustment step. -/
def qlog2 (q : ℚ) : ℤ :=
  let e0 : ℤ := (bitlen q.num.toNat : ℤ) - (bitlen q.den : ℤ)
  if q < pow2 e0 then e0 - 1 else if pow2 (e0 + 1) ≤ q then e0 + 1 else e0

/-- Round a rational to the nearest integer, ties to even. -/
def roundHalfEven (q : ℚ) : ℤ :=
  let n := ⌊q⌋
  let r := q - (n : ℚ)
  if r < 1 / 2 then n
  else if 1 / 2 < r then n + 1
  else if Int.emod n 2 = 0 then n else n + 1

/-- Round-to-nearest-even projection of an exact rational onto the binary64
representable numbers `± m * 2^k`, `m < 2^53` (normal range). -/
def fpRound (q : ℚ) : ℚ :=
  if q = 0 then 0
  else
    let a := |q|
    let k : ℤ := qlog2 a - 52
    let m : ℤ := roundHalfEven (a / pow2 k)
    let v : ℚ := (m : ℚ) * pow2 k
    if q < 0 then -v else v

/-- Go conversion of a `float64` to `int64`: truncation toward zero (the
repository only converts in-range values). -/
def ratTruncInt (q : ℚ) : ℤ := Int.tdiv q.num (q.den : ℤ)

/-! ### `strconv.ParseInt(s, 10, 64)` -/

/-- Go `strconv.ParseInt(s, 10, 64)`, returning `(value, err == nil)`.
Accepts an optional sign followed by one or more ASCII decimal digits.  On a
syntax error Go returns `(0, ErrSyntax)`; on a range error it returns the
clamped value (`MaxInt64` / `MinInt64`) together with `ErrRange`, and the
caller treats any error as "not an integer". -/
def parseInt64 (s : List Char) : ℤ × Bool :=
  let signDigits : Bool × List Char :=
    match s with
    | '+' :: rest => (false, rest)
    | '-' :: rest => (true, rest)
    | _ => (false, s)
  let neg := signDigits.1
  let digits := signDigits.2
  if digits = [] ∨ ¬(digits.all isDigit = true) then (0, false)
  else
    let n : ℕ := digitsToNat digits
    if neg then
      if n ≤ 2 ^ 63 then (-(n : ℤ), true) else (-(2 ^ 63 : ℤ), false)
    else
      if n ≤ 2 ^ 63 - 1 then ((n : ℤ), true) else ((2 ^ 63 - 1 : ℤ), false)

/-! ### `encoding/base64` standard decoding -/

/-- Value of one character of the standard base64 alphabet. -/
def b64Val (c : Char) : Option ℕ :=
  if 'A' ≤ c ∧ c ≤ 'Z' then some (c.toNat - 65)
  else if 'a' ≤ c ∧ c ≤ 'z' then some (c.toNat - 71)
  else if '0' ≤ c ∧ c ≤ '9' then some (c.toNat + 4)
  else if c = '+' then some 62
  else if c = '/' then some 63
  else none

/-- Decode whole base64 quanta (four characters at a time).  `'='` padding is
accepted only in the final quantum, in the last one or two positions; Go's
non-strict `StdEncoding` ignores the unused trailing bits of a padded
quantum. -/
def b64Quanta : List Char → Option (List ℕ)
  | [] => some []
  | c1 :: c2 :: c3 :: c4 :: rest =>
    match b64Val c1, b64Val c2 with
    | some v1, some v2 =>
      if c3 = '=' then
        if c4 = '=' ∧ rest = [] then some [v1 * 4 + v2 / 16] else none
      else
        match b64Val c3 with
        | some v3 =>
          if c4 = '=' then
            if rest = [] then some [v1 * 4 + v2 / 16, (v2 % 16) * 16 + v3 / 4]
            else none
          else
            match b64Val c4 with
            | some v4 =>
              (b64Quanta rest).map
                (fun bs =>
                  (v1 * 4 + v2 / 16) :: ((v2 % 16) * 16 + v3 / 4) ::
                  ((v3 % 4) * 64 + v4) :: bs)
            | none => none
        | none => none
    | _, _ => none
  | _ => none

/-- Go `base64.StdEncoding.DecodeString`: carriage returns and newlines are
ignored, then the input must consist of whole quanta with valid standard
alphabet characters and correct `'='` padding. -/
def base64Decode (s : List Char) : Option (List ℕ) :=
  b64Quanta (s.filter (fun c => ¬(c = '\r' ∨ c = '\n')))

/-! ### IEEE-754 bit patterns

`cmd/main.go` reinterprets 4- and 8-byte base64 payloads as big-endian
IEEE-754 values via `math.Float32frombits` / `math.Float64frombits`.  A Go
`float64` value is modelled by `GoFloat`: either an exact rational (finite
values) or one of the non-finite values. -/

inductive GoFloat where
  | finite (q : ℚ)
  | posInf
  | negInf
  | nan
  deriving DecidableEq

/-- `math.Float32frombits` followed by Go's exact `float64` widening. -/
def float32FromBits (n : ℕ) : GoFloat :=
  let s : ℕ := n / 2 ^ 31 % 2
  let e : ℕ := n / 2 ^ 23 % 2 ^ 8
  let m : ℕ := n % 2 ^ 23
  if e = 255 then
    if m = 0 then (if s = 1 then .negInf else .posInf) else .nan
  else
    let mag : ℚ :=
      if e = 0 then (m : ℚ) * pow2 (-149)
      else (((2 ^ 23 + m : ℕ) : ℚ)) * pow2 ((e : ℤ) - 150)
    .finite (if s = 1 then -mag else mag)

/-- `math.Float64frombits`. -/
def float64FromBits (n : ℕ) : GoFloat :=
  let s : ℕ := n / 2 ^ 63 % 2
  let e : ℕ := n / 2 ^ 52 % 2 ^ 11
  let m : ℕ := n % 2 ^ 52
  if e = 2047 then
    if m = 0 then (if s = 1 then .negInf else .posInf) else .nan
  else
    let mag : ℚ :=
      if e = 0 then (m : ℚ) * pow2 (-1074)
      else (((2 ^ 52 + m : ℕ) : ℚ)) * pow2 ((e : ℤ) - 1075)
    .finite (if s = 1 then -mag else mag)

/-- Big-endian bytes to a natural number (`binary.BigEndian.Uint32/Uint64`). -/
def beBytesToNat (bs : List ℕ) : ℕ := bs.foldl (fun acc b => acc * 256 + b) 0

/-- `binary.BigEndian.Uint32` + `math.Float32frombits` on a 4-byte payload. -/
def f32FromBytes (bs : List ℕ) : GoFloat := float32FromBits (beBytesToNat bs)

/-- `binary.BigEndian.Uint64` + `math.Float64frombits` on an 8-byte payload. -/
def f64FromBytes (bs : List ℕ) : GoFloat := float64FromBits (beBytesToNat bs)

/-! ### `strconv.ParseFloat(s, 64)` (server policy)

`cmd/influxdbclientserver/main.go` disambiguates floats by a direct decimal
parse of the trimmed/lowercased string.  The model accepts an optional sign,
decimal digits with an optional fraction and an optional decimal exponent,
plus the `inf` / `infinity` / `nan` special forms; the exact value is then
rounded to binary64.  (Hex floats and digit-separating underscores, which Go
also accepts, are outside the inputs exercised here.)  A range error makes
Go return a non-nil error, which the caller treats as "not a float". -/

/-- `10 ^ e` as a rational, for an integer exponent `e`. -/
def qpow10 (e : ℤ) : ℚ :=
  if 0 ≤ e then ((10 ^ e.toNat : ℕ) : ℚ)
  else (((10 : ℕ) ^ (-e).toNat : ℕ) : ℚ)⁻¹

/-- Largest finite binary64 value. -/
def maxFloat64 : ℚ := ((2 ^ 53 - 1 : ℕ) : ℚ) * pow2 971

/-- Magnitude of `GoFloat` finite values (0 for non-finite ones). -/
def GoFloat.finiteAbs : GoFloat → ℚ
  | .finite q => |q|
  | _ => 0

/-- Go `strconv.ParseFloat(s, 64)`: `some v` when Go returns a nil error. -/
def parseFloatGo (s : List Char) : Option GoFloat :=
  let t := goToLower s
  if t = [] then none
  else
    let signRest : Bool × List Char :=
      match t with
      | '+' :: r => (false, r)
      | '-' :: r => (true, r)
      | _ => (false, t)
    let neg := signRest.1
    let r := signRest.2
    if r = ['i','n','f'] ∨ r = ['i','n','f','i','n','i','t','y'] then
      some (if neg then .negInf else .posInf)
    else if t = ['n','a','n'] then some .nan
    else
      let d1p := r.span isDigit
      let d1 := d1p.1
      let fracPart : List Char × List Char :=
        match d1p.2 with
        | '.' :: r2 => r2.span isDigit
        | _ => ([], d1p.2)
      let d2 := fracPart.1
      if d1 = [] ∧ d2 = [] then none
      else
        let expPart : Option (ℤ × List Char) :=
          match fracPart.2 with
          | 'e' :: r3 =>
            let se : Bool × List Char :=
              match r3 with
              | '+' :: r4 => (false, r4)
              | '-' :: r4 => (true, r4)
              | _ => (false, r3)
            let dp := se.2.span isDigit
            if dp.1 = [] then none
            else
              some ((if se.1 then -(digitsToNat dp.1 : ℤ)
                     else (digitsToNat dp.1 : ℤ)), dp.2)
          | other => some (0, other)
        match expPart with
        | none => none
        | some (ex, rest3) =>
          if rest3 = [] then
            let mant : ℚ := (digitsToNat (d1 ++ d2) : ℚ) * qpow10 (-(d2.length : ℤ))
            let v := fpRound ((if neg then -mant else mant) * qpow10 ex)
            if |v| ≤ maxFloat64 then some (.finite v) else none
          else none

/-! ### The two `parseValueType` implementations -/

/-- `dataValueType` / `DataValueType` of the Go sources. -/
inductive DataValueType where
  | boolType
  | intType
  | floatType
  | stringType
  deriving DecidableEq

/-- The four named return values of Go's `parseValueType`; unset values keep
their Go zero values. -/
structure ParseResult where
  typeStr : DataValueType
  boolVal : Bool := false
  floatVal : GoFloat := .finite 0
  intVal : ℤ := 0
  deriving DecidableEq

/-- `parseValueType` of `cmd/main.go`: boolean, then base-10 signed 64-bit
integer (both on the trimmed/lowercased copy), then base64 decode of the
*original* string into a 4- or 8-byte big-endian IEEE-754 payload, else
string.  `intVal` keeps whatever `strconv.ParseInt` returned (Go named
returns). -/
def parseValueTypeMain (valueStr : List Char) : ParseResult :=
  let fixedStr := goFix valueStr
  if fixedStr = ['t','r','u','e'] then
    { typeStr := .boolType, boolVal := true }
  else if fixedStr = ['f','a','l','s','e'] then
    { typeStr := .boolType, boolVal := false }
  else
    let pi := parseInt64 fixedStr
    if pi.2 then { typeStr := .intType, intVal := pi.1 }
    else
      match base64Decode valueStr with
      | some data =>
        if data.length = 4 then
          { typeStr := .floatType, floatVal := f32FromBytes data, intVal := pi.1 }
        else if data.length = 8 then
          { typeStr := .floatType, floatVal := f64FromBytes data, intVal := pi.1 }
        else { typeStr := .stringType, intVal := pi.1 }
      | none => { typeStr := .stringType, intVal := pi.1 }

/-- `parseValueType` of `cmd/influxdbclientserver/main.go`: boolean, then
integer, then `strconv.ParseFloat`, all on the trimmed/lowercased copy, else
string. -/
def parseValueTypeServer (valueStr : List Char) : ParseResult :=
  let fixedStr := goFix valueStr
  if fixedStr = ['t','r','u','e'] then
    { typeStr := .boolType, boolVal := true }
  else if fixedStr = ['f','a','l','s','e'] then
    { typeStr := .boolType, boolVal := false }
  else
    let pi := parseInt64 fixedStr
    if pi.2 then { typeStr := .intType, intVal := pi.1 }
    else
      match parseFloatGo fixedStr with
      | some v => { typeStr := .floatType, floatVal := v, intVal := pi.1 }
      | none => { typeStr := .stringType, intVal := pi.1 }

/-- The scalar stored in the point's field map (spec: `InferredValue`).  The
callers' `switch readingType` writes the matching named return into
`fields[reading.Name]`; the string case stores the *original*
`reading.Value`. -/
inductive InferredValue where
  | b (x : Bool)
  | i (x : ℤ)
  | f (x : GoFloat)
  | s (x : List Char)
  deriving DecidableEq

/-- Field value produced by `sendToInfluxDBFunc` (`cmd/main.go`) for a raw
reading value. -/
def inferValueMain (valueStr : List Char) : InferredValue :=
  let pr := parseValueTypeMain valueStr
  match pr.typeStr with
  | .boolType => .b pr.boolVal
  | .intType => .i pr.intVal
  | .floatType => .f pr.floatVal
  | .stringType => .s valueStr

/-- Field value produced by `sendEventToInflux`
(`cmd/influxdbclientserver/main.go`) for a raw reading value. -/
def inferValueServer (valueStr : List Char) : InferredValue :=
  let pr := parseValueTypeServer valueStr
  match pr.typeStr with
  | .boolType => .b pr.boolVal
  | .intType => .i pr.intVal
  | .floatType => .f pr.floatVal
  | .stringType => .s valueStr

/-! ### Data model and timestamp conversion -/

/-- One EdgeX reading, as consumed by both send loops (§3 of the spec). -/
structure Reading where
  device : List Char
  name : List Char
  id : List Char
  value : List Char
  origin : ℤ
  deriving DecidableEq

/-- One EdgeX event. -/
structure Event where
  device : List Char
  readings : List Reading
  deriving DecidableEq

/-- One InfluxDB point (measurement, tags, fields, `time.Unix` pair). -/
structure Point where
  measurement : List Char
  tags : List (List Char × List Char)
  fields : List (List Char × InferredValue)
  time : ℤ × ℤ
  deriving DecidableEq

/-- The timestamp computation shared by both send loops:
`unixTime := float64(origin) / divisor`, `unixTimeSec := math.Floor(unixTime)`,
`unixTimeNSec := int64((unixTime - unixTimeSec) * 1e9)`, then
`time.Unix(int64(unixTimeSec), unixTimeNSec)`.  Every `float64` operation is
modelled by exact arithmetic followed by `fpRound`. -/
def goTimestamp (divisor : ℚ) (origin : ℤ) : ℤ × ℤ :=
  let o := fpRound (origin : ℚ)
  let u := fpRound (o / divisor)
  let s : ℚ := (⌊u⌋ : ℚ)
  let f := fpRound (u - s)
  let n := fpRound (f * 1000000000)
  (ratTruncInt s, ratTruncInt n)

/-- Timestamp of `sendToInfluxDBFunc` (`cmd/main.go`): the divisor is
`float64(time.Second/time.Nanosecond) = 1e9`. -/
def timestampMainGo (origin : ℤ) : ℤ × ℤ := goTimestamp 1000000000 origin

/-- Timestamp of `sendEventToInflux` (`cmd/influxdbclientserver/main.go`):
the divisor is `float64(time.Second/time.Millisecond) = 1000`. -/
def timestampServer (origin : ℤ) : ℤ × ℤ := goTimestamp 1000 origin

/-! ### Point construction and the batching loops -/

/-- Modelled from the spec: `influx.NewPoint` belongs to the external InfluxDB
client, not to this repository; §4.3 specifies that point construction fails
only when the underlying representation rejects the tag/field set, with an
empty measurement name as the canonical example, so the model rejects exactly
the empty measurement.  Go returns `(nil, err)` on failure, modelled as
`none`. -/
def NewPoint (measurement : List Char) (tags : List (List Char × List Char))
    (fields : List (List Char × InferredValue)) (time : ℤ × ℤ) : Option Point :=
  if measurement = [] then none else some ⟨measurement, tags, fields, time⟩

/-- Per-reading point construction in `sendEventToInflux`
(`cmd/influxdbclientserver/main.go`): tags `{"id": reading.Id.Hex()}` (the
hex id is modelled as the reading's id string), fields
`{reading.Name: parsed value}`, measurement `reading.Device`, server
timestamp. -/
def processReadingServer (r : Reading) : Option Point :=
  NewPoint r.device [(['i','d'], r.id)] [(r.name, inferValueServer r.value)]
    (timestampServer r.origin)

/-- Per-reading point construction in `sendToInfluxDBFunc` (`cmd/main.go`):
tags `{"id": reading.Id}`, fields `{reading.Name: parsed value}`,
measurement `reading.Device`, `cmd/main.go` timestamp. -/
def processReadingMain (r : Reading) : Option Point :=
  NewPoint r.device [(['i','d'], r.id)] [(r.name, inferValueMain r.value)]
    (timestampMainGo r.origin)

/-- The `for _, reading := range event.Readings` loop of `sendEventToInflux`:
on a `NewPoint` error the loop logs the error and *still* calls
`bp.AddPoint(pt)` with the nil point, so every reading contributes one batch
entry (`none` for a failed construction).  Returns the batch entries in
order together with the readings whose construction failed (one log line
each). -/
def batchLoopServer : List Reading → List (Option Point) × List Reading
  | [] => ([], [])
  | r :: rs =>
    let pt := processReadingServer r
    let rest := batchLoopServer rs
    (pt :: rest.1, match pt with | none => r :: rest.2 | some _ => rest.2)

/-- The same loop in `sendToInfluxDBFunc` (`cmd/main.go`), which also calls
`bp.AddPoint(pt)` unconditionally after logging a `NewPoint` error. -/
def batchLoopMain : List Reading → List (Option Point) × List Reading
  | [] => ([], [])
  | r :: rs =>
    let pt := processReadingMain r
    let rest := batchLoopMain rs
    (pt :: rest.1, match pt with | none => r :: rest.2 | some _ => rest.2)

/-! ### Batch construction, the per-event send and the HTTP handler -/

/-- `influx.BatchPointsConfig`: the fields the repository sets. -/
structure BatchPointsConfig where
  database : List Char
  precision : List Char
  deriving DecidableEq

/-- Modelled from the spec: `influx.NewBatchPoints` belongs to the external
InfluxDB client; §6 lists the valid write-precision units (nanoseconds,
microseconds, milliseconds, seconds; an empty precision means the default),
and the constructor returns `(nil, err)` for any other unit. -/
def NewBatchPoints (cfg : BatchPointsConfig) : Except Unit (List (Option Point)) :=
  if cfg.precision = [] ∨ cfg.precision = ['n','s'] ∨ cfg.precision = ['u','s'] ∨
     cfg.precision = ['m','s'] ∨ cfg.precision = ['s'] then .ok []
  else .error ()

/-- Observable outcome of one `sendEventToInflux` call: the batch entries
passed to `AddPoint`, the readings whose point construction was logged as
failed, how many times the Influx client's `Write` was invoked, and whether
a write error was logged.  Nothing here flows back to the HTTP caller. -/
structure SendResult where
  batch : List (Option Point)
  buildErrors : List Reading
  writeAttempts : ℕ
  writeErrorLogged : Bool
  deriving DecidableEq

/-- `sendEventToInflux` (`cmd/influxdbclientserver/main.go`), parametrised by
the Influx client's `Write`.  `bp, _ := influx.NewBatchPoints(ptConfig)`
silently discards the constructor error; when the constructor rejects the
configuration, `bp` is nil and the subsequent `bp.AddPoint` / `Write(bp)`
dereference a nil batch, modelled as `none`.  On success the write is
attempted exactly once and a failure is only logged. -/
def sendEventToInflux (cfg : BatchPointsConfig)
    (write : List (Option Point) → Except (List Char) Unit)
    (event : Event) : Option SendResult :=
  match NewBatchPoints cfg with
  | .error _ => none
  | .ok bp0 =>
    let lp := batchLoopServer event.readings
    let bp := bp0 ++ lp.1
    some { batch := bp, buildErrors := lp.2, writeAttempts := 1,
           writeErrorLogged := match write bp with
                               | .error _ => true
                               | .ok _ => false }

/-- The literal `"POST"`. -/
def sPOST : List Char := ['P','O','S','T']

/-- `readingData` (`cmd/influxdbclientserver/main.go`): method check, JSON
decode of the body (given here as an already-attempted decode result), then
`go sendEventToInflux(...)` and `w.WriteHeader(http.StatusOK)`.  Returns the
HTTP status code and the event handed off to the goroutine; the handler
never consults the write outcome. -/
def readingData (method : List Char) (body : Except (List Char) Event) :
    ℕ × Option Event :=
  if ¬(goToUpper method = sPOST) then (405, none)
  else
    match body with
    | .error _ => (400, none)
    | .ok event => (200, some event)

/-- The whole request path: `readingData` computes the response, and the
handed-off event (if any) is processed by `sendEventToInflux` on a separate
goroutine. -/
def handleRequest (write : List (Option Point) → Except (List Char) Unit)
    (cfg : BatchPointsConfig) (method : List Char)
    (body : Except (List Char) Event) : ℕ × Option (Option SendResult) :=
  let rd := readingData method body
  (rd.1, rd.2.map (sendEventToInflux cfg write))

/-! ### The spec's timestamp formulas (claim C7) -/

/-- Rounding to the nearest integer as written in the spec's formula. -/
def roundNearest (q : ℚ) : ℤ := ⌊q + 1 / 2⌋

/-- Modelled from the spec: the floating-point timestamp formula of §4.2 as
the claim states it — `seconds = floor(originMillis / 1000.0)` with the
division performed in binary64, `nanoseconds = round((unixTime - seconds) *
1e9)` — for comparison against the integer computation. -/
def specFloatTimestamp (m : ℤ) : ℤ × ℤ :=
  let u := fpRound (fpRound (m : ℚ) / 1000)
  let s := ⌊u⌋
  (s, roundNearest ((u - (s : ℚ)) * 1000000000))

/-- Modelled from the spec: §4.2's recommended integer computation
`seconds = originMillis div 1000`, `nanoseconds = (originMillis mod 1000) *
1_000_000` (mathematical div/mod). -/
def intTimestamp (m : ℤ) : ℤ × ℤ :=
  (Int.ediv m 1000, Int.emod m 1000 * 1000000)

/-- The same formula as `specFloatTimestamp` but with the division carried
out in exact real arithmetic instead of binary64. -/
def exactTimestamp (m : ℤ) : ℤ × ℤ :=
  let u : ℚ := (m : ℚ) / 1000
  let s := ⌊u⌋
  (s, roundNearest ((u - (s : ℚ)) * 1000000000))

/-! ### Helper lemmas -/

set_option maxRecDepth 100000

lemma batchLoopServer_length (rs : List Reading) :
    (batchLoopServer rs).1.length = rs.length := by
  induction rs with
  | nil => rfl
  | cons r rs ih => simp [batchLoopServer, ih]

lemma batchLoopServer_filterMap (rs : List Reading) :
    (batchLoopServer rs).1.filterMap id = rs.filterMap processReadingServer := by
  induction rs with
  | nil => rfl
  | cons r rs ih =>
    cases h : processReadingServer r <;>
      simp [batchLoopServer, h, ih]

lemma batchLoopServer_errors (rs : List Reading) :
    (batchLoopServer rs).2 = rs.filter (fun r => (processReadingServer r).isNone) := by
  induction rs with
  | nil => rfl
  | cons r rs ih =>
    cases h : processReadingServer r <;>
      simp [batchLoopServer, h, ih]

lemma batchLoopMain_length (rs : List Reading) :
    (batchLoopMain rs).1.length = rs.length := by
  induction rs with
  | nil => rfl
  | cons r rs ih => simp [batchLoopMain, ih]

lemma batchLoopMain_filterMap (rs : List Reading) :
    (batchLoopMain rs).1.filterMap id = rs.filterMap processReadingMain := by
  induction rs with
  | nil => rfl
  | cons r rs ih =>
    cases h : processReadingMain r <;>
      simp [batchLoopMain, h, ih]

lemma batchLoopMain_errors (rs : List Reading) :
    (batchLoopMain rs).2 = rs.filter (fun r => (processReadingMain r).isNone) := by
  induction rs with
  | nil => rfl
  | cons r rs ih =>
    cases h : processReadingMain r <;>
      simp [batchLoopMain, h, ih]

/-! ### Claim C1 -/

/-- C1: evaluation of the two timestamp conversions at the claim's example
inputs.  In `cmd/main.go` the divisor is `float64(time.Second/time.Nanosecond)
= 1e9` — contradicting both the claim's `originMillis / 1000.0` formula and
the code's own comment that the origin is in milliseconds — so origin 1000
yields `(0 s, 1000 ns)` there; the `influxdbclientserver` conversion divides
by 1000 and matches the claim's example values. -/
theorem timestamp_conversion_eval :
    timestampMainGo 1000 = (0, 1000) ∧
    timestampServer 1000 = (1, 0) ∧
    timestampServer 1500 = (1, 500000000) ∧
    timestampServer 0 = (0, 0) := by
  with_unfolding_all decide

/-! ### Claim C2 -/

/-- A reading whose point construction fails (empty device/measurement). -/
def rBadC2 : Reading := ⟨[], ['t'], ['i'], ['2','3'], 1000⟩

/-- A reading whose point construction succeeds. -/
def rOkC2 : Reading := ⟨['d'], ['t'], ['i'], ['2','3'], 1000⟩

/-- C2 counterexample: for an event with N = 2 readings whose first reading
fails point construction, exactly one error is reported for that reading and
the loop continues, but the batch receives 2 entries — the nil point is still
added by the unconditional `bp.AddPoint(pt)` — not the claimed N-1 = 1. -/
theorem batch_skip_counterexample :
    (batchLoopServer [rBadC2, rOkC2]).2 = [rBadC2] ∧
    (batchLoopServer [rBadC2, rOkC2]).1.length = 2 ∧
    ¬((batchLoopServer [rBadC2, rOkC2]).1.length = 2 - 1) ∧
    (batchLoopServer [rBadC2, rOkC2]).1.head? = some none ∧
    ((batchLoopServer [rBadC2, rOkC2]).1.filterMap id).length = 1 := by
  with_unfolding_all decide

/-- C2 (amended): in both send loops, batching continues past a failed
reading and one error is recorded per failed reading, but every reading
contributes one batch entry (the batch has N entries, with `none` — Go's nil
point — for each failure); the successfully constructed points are exactly
those of the non-failing readings, so N-1 of them when one reading fails. -/
theorem batch_entries_amended (rs : List Reading) :
    (batchLoopServer rs).1.length = rs.length ∧
    (batchLoopServer rs).1.filterMap id = rs.filterMap processReadingServer ∧
    (batchLoopServer rs).2 = rs.filter (fun r => (processReadingServer r).isNone) ∧
    (batchLoopMain rs).1.length = rs.length ∧
    (batchLoopMain rs).1.filterMap id = rs.filterMap processReadingMain ∧
    (batchLoopMain rs).2 = rs.filter (fun r => (processReadingMain r).isNone) :=
  ⟨batchLoopServer_length rs, batchLoopServer_filterMap rs,
   batchLoopServer_errors rs, batchLoopMain_length rs,
   batchLoopMain_filterMap rs, batchLoopMain_errors rs⟩

/-! ### Claim C3 -/

/-- C3: any raw string whose trimmed, lowercased form is `"true"`
(respectively `"false"`) is classified as Bool(true) (respectively
Bool(false)) by both `parseValueType` implementations; the boolean test is
the first branch of the cascade, so it precedes every other
interpretation. -/
theorem bool_inference (s : List Char) :
    (goFix s = ['t','r','u','e'] →
      inferValueMain s = .b true ∧ inferValueServer s = .b true) ∧
    (goFix s = ['f','a','l','s','e'] →
      inferValueMain s = .b false ∧ inferValueServer s = .b false) := by
  constructor <;> intro h <;>
    constructor <;>
      simp [inferValueMain, inferValueServer, parseValueTypeMain,
            parseValueTypeServer, h]

/-- C3 witness: `" True "`, `"TRUE"`, `"False"` at concrete inputs. -/
theorem bool_inference_witness :
    inferValueMain [' ','T','r','u','e',' '] = .b true ∧
    inferValueServer ['T','R','U','E'] = .b true ∧
    inferValueMain ['F','a','l','s','e'] = .b false := by
  refine ⟨((bool_inference _).1 ?_).1, ((bool_inference _).1 ?_).2,
          ((bool_inference _).2 ?_).1⟩ <;> with_unfolding_all decide

/-! ### Claim C4 -/

/-- The event of the end-to-end scenario. -/
def eventC4 : Event :=
  ⟨['s','e','n','s','o','r','A'],
   [⟨['s','e','n','s','o','r','A'], ['t','e','m','p'], ['r','1'],
     ['2','3'], 1000⟩]⟩

/-- A batch-points configuration the constructor accepts. -/
def cfgC4 : BatchPointsConfig := ⟨['e','d','g','e','x'], ['u','s']⟩

/-- A storage write that succeeds. -/
def writeOkC4 : List (Option Point) → Except (List Char) Unit := fun _ => .ok ()

/-- C4: the server pipeline on the event
`{device:"sensorA", readings:[{name:"temp", id:"r1", value:"23",
origin:1000}]}` produces a batch with exactly one point: measurement
`"sensorA"`, tags `{id:"r1"}`, fields `{temp: 23}` as a 64-bit integer, and
timestamp `(1 s, 0 ns)`. -/
theorem end_to_end_sensorA :
    sendEventToInflux cfgC4 writeOkC4 eventC4 =
      some ⟨[some ⟨['s','e','n','s','o','r','A'],
                   [(['i','d'], ['r','1'])],
                   [(['t','e','m','p'], .i 23)],
                   (1, 0)⟩],
            [], 1, false⟩ := by
  with_unfolding_all decide

/-! ### Claim C5 -/

/-- C5: under the base64 policy of `cmd/main.go`, a raw string that is
neither a boolean form nor a parseable base-10 `int64` but whose original
text base64-decodes to exactly 4 (resp. 8) bytes is classified as the
big-endian IEEE-754 single (resp. double) precision value of those bytes;
payloads of any other byte length fall through to the string variant. -/
theorem base64_float_inference (s : List Char) (bs : List ℕ)
    (h1 : ¬(goFix s = ['t','r','u','e']))
    (h2 : ¬(goFix s = ['f','a','l','s','e']))
    (h3 : (parseInt64 (goFix s)).2 = false)
    (h4 : base64Decode s = some bs) :
    (bs.length = 4 → inferValueMain s = .f (f32FromBytes bs)) ∧
    (bs.length = 8 → inferValueMain s = .f (f64FromBytes bs)) ∧
    (¬(bs.length = 4) → ¬(bs.length = 8) → inferValueMain s = .s s) := by
  refine ⟨fun hl => ?_, fun hl => ?_, fun hl4 hl8 => ?_⟩
  · simp [inferValueMain, parseValueTypeMain, h1, h2, h3, h4, hl]
  · simp [inferValueMain, parseValueTypeMain, h1, h2, h3, h4, hl]
  · simp [inferValueMain, parseValueTypeMain, h1, h2, h3, h4, hl4, hl8]

/-- C5 witness: `"P8AAAA=="`, the 4-byte big-endian base64 encoding of 1.5,
is classified as Float(1.5) exactly. -/
theorem base64_float_inference_witness :
    inferValueMain ['P','8','A','A','A','A','=','='] = .f (.finite (3 / 2)) := by
  have h := (base64_float_inference ['P','8','A','A','A','A','=','=']
    [63, 192, 0, 0] (by with_unfolding_all decide) (by with_unfolding_all decide)
    (by with_unfolding_all decide) (by with_unfolding_all decide)).1 (by decide)
  rw [h]
  with_unfolding_all decide

/-! ### Claim C6 -/

/-- C6: a raw string matching none of the boolean, integer or (4/8-byte
base64) float forms is classified by `cmd/main.go` as the string variant
carrying the original, untrimmed raw value. -/
theorem string_fallback (s : List Char)
    (h1 : ¬(goFix s = ['t','r','u','e']))
    (h2 : ¬(goFix s = ['f','a','l','s','e']))
    (h3 : (parseInt64 (goFix s)).2 = false)
    (h4 : ((base64Decode s).all
            (fun bs => decide (¬(bs.length = 4) ∧ ¬(bs.length = 8)))) = true) :
    inferValueMain s = .s s := by
  cases hb : base64Decode s with
  | none => simp [inferValueMain, parseValueTypeMain, h1, h2, h3, hb]
  | some bs =>
    rw [hb] at h4
    simp only [Option.all, decide_eq_true_eq] at h4
    simp [inferValueMain, parseValueTypeMain, h1, h2, h3, hb, h4.1, h4.2]

/-- C6 witness: `"abc"`, `""` and `"1.2.3"` all fall through to the string
variant with the original value. -/
theorem string_fallback_witness :
    inferValueMain ['a','b','c'] = .s ['a','b','c'] ∧
    inferValueMain [] = .s [] ∧
    inferValueMain ['1','.','2','.','3'] = .s ['1','.','2','.','3'] :=
  ⟨string_fallback _ (by with_unfolding_all decide) (by with_unfolding_all decide)
     (by with_unfolding_all decide) (by with_unfolding_all decide),
   string_fallback _ (by with_unfolding_all decide) (by with_unfolding_all decide)
     (by with_unfolding_all decide) (by with_unfolding_all decide),
   string_fallback _ (by with_unfolding_all decide) (by with_unfolding_all decide)
     (by with_unfolding_all decide) (by with_unfolding_all decide)⟩

/-! ### Claim C7 -/

/-- C7 counterexample: at originMillis = 1500000000001 (one millisecond past
a 2017 epoch second), the binary64 evaluation of the spec's floating-point
formula yields 999928 rounded nanoseconds — the quotient 1500000000.001 is
not representable, the nearest double has fractional part 4194/2^22 — while
the integer computation yields (1500000000001 mod 1000) * 1e6 = 1000000, so
the two computations differ. -/
theorem float_timestamp_counterexample :
    specFloatTimestamp 1500000000001 = (1500000000, 999928) ∧
    intTimestamp 1500000000001 = (1500000000, 1000000) ∧
    ¬(specFloatTimestamp 1500000000001 = intTimestamp 1500000000001) := by
  with_unfolding_all decide

/-- C7 (amended): the spec's formula evaluated in exact real arithmetic —
`seconds = floor(originMillis / 1000)`, `nanoseconds = round((originMillis /
1000 - seconds) * 1e9)` — is equal to the integer computation `(originMillis
div 1000, (originMillis mod 1000) * 1_000_000)` for every `int64`; it is the
binary64 evaluation of the division that breaks the equality (see the
counterexample). -/
theorem exact_int_timestamp_equiv (m : ℤ) : exactTimestamp m = intTimestamp m := by
  have hgoal : exactTimestamp m =
      (⌊(m : ℚ) / 1000⌋,
       ⌊((m : ℚ) / 1000 - (⌊(m : ℚ) / 1000⌋ : ℚ)) * 1000000000 + 1 / 2⌋) := rfl
  have higoal : intTimestamp m = (Int.ediv m 1000, Int.emod m 1000 * 1000000) := rfl
  set q : ℤ := Int.ediv m 1000 with hq
  set r : ℤ := Int.emod m 1000 with hr
  have hm : 1000 * q + r = m := Int.ediv_add_emod m 1000
  have hr0 : (0 : ℤ) ≤ r := Int.emod_nonneg m (by norm_num)
  have hr1 : r < 1000 := Int.emod_lt_of_pos m (by norm_num)
  have hu : (m : ℚ) / 1000 = (r : ℚ) / 1000 + (q : ℚ) := by
    rw [← hm]; push_cast; ring
  have hfr0 : (0 : ℚ) ≤ (r : ℚ) / 1000 := by positivity
  have hfr1 : (r : ℚ) / 1000 < 1 := by
    rw [div_lt_one (by norm_num)]; exact_mod_cast hr1
  have hfloor : ⌊(m : ℚ) / 1000⌋ = q := by
    rw [hu, Int.floor_add_int, Int.floor_eq_zero_iff.mpr ⟨hfr0, hfr1⟩, zero_add]
  have hprod : ((m : ℚ) / 1000 - (⌊(m : ℚ) / 1000⌋ : ℚ)) * 1000000000 =
      ((r * 1000000 : ℤ) : ℚ) := by
    rw [hfloor, hu]; push_cast; ring
  have hhalf : ⌊(1 : ℚ) / 2⌋ = 0 := by
    rw [Int.floor_eq_zero_iff]; constructor <;> norm_num
  have hnano : ⌊((m : ℚ) / 1000 - (⌊(m : ℚ) / 1000⌋ : ℚ)) * 1000000000 + 1 / 2⌋ =
      r * 1000000 := by
    rw [hprod, add_comm, Int.floor_add_int, hhalf, zero_add]
  rw [hgoal, higoal, hnano, hfloor]

/-! ### Claim C8 -/

/-- C8: for every event whose body decodes successfully, the POST handler
returns status 200 and hands the event off; the status is the same for every
possible storage-write function; the batch, the per-reading errors and the
single write attempt of the handed-off `sendEventToInflux` likewise do not
depend on the write outcome — a failed write is recorded only in the send
result's log flag, which flows nowhere; and the write is attempted exactly
once (no retry). -/
theorem http_ack_independent (cfg : BatchPointsConfig) (ev : Event)
    (w w' : List (Option Point) → Except (List Char) Unit) :
    (handleRequest w cfg sPOST (.ok ev)).1 = 200 ∧
    (handleRequest w cfg sPOST (.ok ev)).1 = (handleRequest w' cfg sPOST (.ok ev)).1 ∧
    (readingData sPOST (.ok ev)).2 = some ev ∧
    ((sendEventToInflux cfg w ev).map
        (fun rr => (rr.batch, rr.buildErrors, rr.writeAttempts))) =
      ((sendEventToInflux cfg w' ev).map
        (fun rr => (rr.batch, rr.buildErrors, rr.writeAttempts))) ∧
    ((sendEventToInflux cfg w ev).all (fun rr => rr.writeAttempts == 1)) = true := by
  have hpost : goToUpper sPOST = sPOST := by with_unfolding_all decide
  refine ⟨?_, ?_, ?_, ?_, ?_⟩
  · simp [handleRequest, readingData, hpost]
  · simp [handleRequest, readingData, hpost]
  · simp [readingData, hpost]
  · cases h : NewBatchPoints cfg <;> simp [sendEventToInflux, h]
  · cases h : NewBatchPoints cfg <;> simp [sendEventToInflux, h, Option.all]

/-! ### Claim C10 -/

/-- C10: `sendEventToInflux` discards the result of `NewBatchPoints`, so the
send is free of a nil-batch dereference exactly when the constructor accepts
the batch-points configuration; for a rejected configuration the ignored
error leaves `bp` nil and the unconditional `AddPoint` / `Write` calls
operate on a nil batch (modelled as `none`). -/
theorem nil_batch_send (cfg : BatchPointsConfig)
    (w : List (Option Point) → Except (List Char) Unit) (ev : Event) :
    ((NewBatchPoints cfg).isOk = true → (sendEventToInflux cfg w ev).isSome = true) ∧
    ((NewBatchPoints cfg).isOk = false → sendEventToInflux cfg w ev = none) := by
  constructor
  · intro hOk
    cases h : NewBatchPoints cfg with
    | error e => rw [h] at hOk; simp [Except.isOk, Except.toBool] at hOk
    | ok bp => simp [sendEventToInflux, h]
  · intro hBad
    cases h : NewBatchPoints cfg with
    | error e => simp [sendEventToInflux, h]
    | ok bp => rw [h] at hBad; simp [Except.isOk, Except.toBool] at hBad

/-- C10 witness: a valid configuration (`us` precision) sends, an invalid
one (`x` precision) leaves the nil batch. -/
theorem nil_batch_send_witness :
    (sendEventToInflux ⟨['d','b'], ['u','s']⟩ (fun _ => .ok ()) ⟨[], []⟩).isSome = true ∧
    sendEventToInflux ⟨['d','b'], ['x']⟩ (fun _ => .ok ()) ⟨[], []⟩ = none :=
  ⟨(nil_batch_send ⟨['d','b'], ['u','s']⟩ (fun _ => .ok ()) ⟨[], []⟩).1
     (by with_unfolding_all decide),
   (nil_batch_send ⟨['d','b'], ['x']⟩ (fun _ => .ok ()) ⟨[], []⟩).2
     (by with_unfolding_all decide)⟩

/-! ### Claim C9 -/

lemma goLowerChar_of_space {c : Char} (h : goIsSpace c = true) :
    goLowerChar c = c := by
  have hval : c = ' ' ∨ c = '\t' ∨ c = '\n' ∨ c = '\x0b' ∨ c = '\x0c' ∨
      c = '\r' ∨ c = '\x85' ∨ c = '\xa0' := by
    simpa [goIsSpace, or_assoc] using h
  rcases hval with h | h | h | h | h | h | h | h <;> subst h <;> decide

lemma goToLower_of_all_space {w : List Char} (h : w.all goIsSpace = true) :
    goToLower w = w := by
  induction w with
  | nil => rfl
  | cons c cs ih =>
    simp only [List.all_cons, Bool.and_eq_true] at h
    simp [goToLower, goLowerChar_of_space h.1]
    simpa [goToLower] using ih h.2

lemma dropWhile_append_of_all {p : Char → Bool} {a : List Char} (x : List Char)
    (h : a.all p = true) : (a ++ x).dropWhile p = x.dropWhile p := by
  induction a with
  | nil => rfl
  | cons c cs ih =>
    simp only [List.all_cons, Bool.and_eq_true] at h
    simp [List.dropWhile_cons, h.1, ih h.2]

lemma dropWhile_eq_nil_of_all {p : Char → Bool} {a : List Char}
    (h : a.all p = true) : a.dropWhile p = [] := by
  induction a with
  | nil => rfl
  | cons c cs ih =>
    simp only [List.all_cons, Bool.and_eq_true] at h
    simp [List.dropWhile_cons, h.1, ih h.2]

lemma goTrimSpace_pad (w1 s w2 : List Char) (h1 : w1.all goIsSpace = true)
    (h2 : w2.all goIsSpace = true) :
    goTrimSpace (w1 ++ s ++ w2) = goTrimSpace s := by
  unfold goTrimSpace
  rw [List.append_assoc, dropWhile_append_of_all (s ++ w2) h1]
  by_cases hs : s.dropWhile goIsSpace = []
  · rw [List.dropWhile_append, hs]
    simp [dropWhile_eq_nil_of_all h2]
  · rw [List.dropWhile_append, if_neg (by simp [hs]), List.reverse_append,
        dropWhile_append_of_all _ (by simpa using h2)]

lemma goFix_pad (w1 s w2 : List Char) (h1 : w1.all goIsSpace = true)
    (h2 : w2.all goIsSpace = true) :
    goFix (w1 ++ s ++ w2) = goFix s := by
  unfold goFix
  simp only [goToLower, List.map_append]
  have e1 : w1.map goLowerChar = w1 := goToLower_of_all_space h1
  have e2 : w2.map goLowerChar = w2 := goToLower_of_all_space h2
  rw [e1, e2]
  exact goTrimSpace_pad w1 (s.map goLowerChar) w2 h1 h2

/-- C9 counterexample: under the `cmd/main.go` policy, the float form
`"P8AAAA=="` (base64 of 1.5) is classified as Float, but the same value with
leading and trailing spaces falls through to the string variant, because the
base64 parsing attempt uses the *original* raw string, not the trimmed copy;
so not every numeric form tolerates surrounding whitespace. -/
theorem whitespace_float_counterexample :
    goTrimSpace [' ','P','8','A','A','A','A','=','=',' '] =
      ['P','8','A','A','A','A','=','='] ∧
    inferValueMain ['P','8','A','A','A','A','=','='] = .f (.finite (3 / 2)) ∧
    inferValueMain [' ','P','8','A','A','A','A','=','=',' '] =
      .s [' ','P','8','A','A','A','A','=','=',' '] := by
  with_unfolding_all decide

/-- C9 (amended): surrounding whitespace is harmless for the forms parsed
from the trimmed/lowercased copy — strings classified bool or int by
`cmd/main.go`, and strings classified anything but string (bool, int or
ParseFloat float) by the server — because those parsing attempts depend only
on the trimmed copy; only the `cmd/main.go` base64 float attempt reads the
original raw string (see the counterexample), and the string fallback keeps
the original raw value. -/
theorem whitespace_trimming_amended (w1 s w2 : List Char)
    (h1 : w1.all goIsSpace = true) (h2 : w2.all goIsSpace = true) :
    ((parseValueTypeMain s).typeStr = .boolType ∨
        (parseValueTypeMain s).typeStr = .intType →
      inferValueMain (w1 ++ s ++ w2) = inferValueMain s) ∧
    (¬((parseValueTypeServer s).typeStr = .stringType) →
      inferValueServer (w1 ++ s ++ w2) = inferValueServer s) := by
  have hfix : goFix (w1 ++ (s ++ w2)) = goFix s := by
    rw [← List.append_assoc]; exact goFix_pad w1 s w2 h1 h2
  constructor
  · intro hty
    by_cases ht : goFix s = ['t','r','u','e']
    · simp [inferValueMain, parseValueTypeMain, hfix, ht]
    by_cases hf : goFix s = ['f','a','l','s','e']
    · simp [inferValueMain, parseValueTypeMain, hfix, ht, hf]
    by_cases hi : (parseInt64 (goFix s)).2 = true
    · simp [inferValueMain, parseValueTypeMain, hfix, ht, hf, hi]
    · exfalso
      simp only [Bool.not_eq_true] at hi
      cases hb : base64Decode s with
      | none =>
        rcases hty with hty | hty <;>
          simp [parseValueTypeMain, ht, hf, hi, hb] at hty
      | some bs =>
        by_cases hl4 : bs.length = 4
        · rcases hty with hty | hty <;>
            simp [parseValueTypeMain, ht, hf, hi, hb, hl4] at hty
        by_cases hl8 : bs.length = 8
        · rcases hty with hty | hty <;>
            simp [parseValueTypeMain, ht, hf, hi, hb, hl4, hl8] at hty
        · rcases hty with hty | hty <;>
            simp [parseValueTypeMain, ht, hf, hi, hb, hl4, hl8] at hty
  · intro hty
    by_cases ht : goFix s = ['t','r','u','e']
    · simp [inferValueServer, parseValueTypeServer, hfix, ht]
    by_cases hf : goFix s = ['f','a','l','s','e']
    · simp [inferValueServer, parseValueTypeServer, hfix, ht, hf]
    by_cases hi : (parseInt64 (goFix s)).2 = true
    · simp [inferValueServer, parseValueTypeServer, hfix, ht, hf, hi]
    · simp only [Bool.not_eq_true] at hi
      cases hp : parseFloatGo (goFix s) with
      | some v =>
        simp [inferValueServer, parseValueTypeServer, hfix, ht, hf, hi, hp]
      | none =>
        exfalso
        simp [parseValueTypeServer, ht, hf, hi, hp] at hty

/-- C9 witness: `" 42 "` parses like `"42"` under both policies. -/
theorem whitespace_trimming_amended_witness :
    inferValueMain ([' '] ++ ['4','2'] ++ [' ']) = inferValueMain ['4','2'] ∧
    inferValueServer ([' '] ++ ['4','2'] ++ [' ']) = inferValueServer ['4','2'] :=
  ⟨(whitespace_trimming_amended [' '] ['4','2'] [' ']
      (by with_unfolding_all decide) (by with_unfolding_all decide)).1
      (Or.inr (by with_unfolding_all decide)),
   (whitespace_trimming_amended [' '] ['4','2'] [' ']
      (by with_unfolding_all decide) (by with_unfolding_all decide)).2
      (by with_unfolding_all decide)⟩
